import Mathlib

/-
Shallow embedding of the live voice-interview session controller from
src/frontend/components/voice/voice-interview.tsx (the VoiceInterview
component).  React state hooks and refs become fields of an explicit
session-state record; each transport callback, timer callback and caller
command becomes one arm of a step function on that record.  JavaScript
string operations used by the handlers (trim, toLowerCase, includes,
startsWith, split on whitespace, join) are embedded as character-list
functions with the same semantics on the inputs the handlers guard for.
-/

namespace VoiceInterview

/-! ## JavaScript string helpers -/

/-- Whitespace-trim of a character list: drop leading and trailing
whitespace, as JavaScript String.prototype.trim does. -/
def trimL (l : List Char) : List Char :=
  ((l.dropWhile Char.isWhitespace).reverse.dropWhile Char.isWhitespace).reverse

/-- JavaScript truthiness of text.trim(): true when the trimmed text is
non-empty. -/
def trimNonempty (s : String) : Bool :=
  !(trimL s.data).isEmpty

/-- Substring containment on character lists, as JavaScript
String.prototype.includes. -/
def containsSub (l pat : List Char) : Bool :=
  (List.range (l.length + 1)).any (fun i => pat.isPrefixOf (l.drop i))

/-- JavaScript s.includes(pat). -/
def strIncludes (s pat : String) : Bool :=
  containsSub s.data pat.data

/-- JavaScript s.startsWith(pre). -/
def startsWithS (s pre : String) : Bool :=
  pre.data.isPrefixOf s.data

/-- JavaScript s.toLowerCase() (ASCII lowering, which covers every
farewell pattern in the source). -/
def lowerS (s : String) : String :=
  ⟨s.data.map Char.toLower⟩

/-- Helper for tokenisation: accumulates the current in-progress token
(reversed) while scanning the character list. -/
def tokensAux : List Char → List Char → List (List Char)
  | [], acc => if acc.isEmpty then [] else [acc.reverse]
  | c :: rest, acc =>
      if c.isWhitespace then
        if acc.isEmpty then tokensAux rest []
        else acc.reverse :: tokensAux rest []
      else tokensAux rest (c :: acc)

/-- Maximal runs of non-whitespace characters. -/
def tokens (l : List Char) : List (List Char) :=
  tokensAux l []

/-- The word count the source computes as
text.trim().split(regex on whitespace runs).length; for text whose trim
is non-empty (the only case the source evaluates it in) this is the
number of whitespace-delimited tokens. -/
def wordCount (s : String) : Nat :=
  (tokens s.data).length

/-- JavaScript Array.prototype.join(sep). -/
def joinSep (sep : String) : List String → String
  | [] => ""
  | [x] => x
  | x :: y :: xs => x ++ sep ++ joinSep sep (y :: xs)

/-! ## Data model -/

/-- Speaker role of a transcript entry. -/
inductive Role where
  | agent
  | user
deriving DecidableEq, Repr

/-- One committed transcript entry: role, raw text, and the commit
timestamp (the source stores new Date().toISOString(); we model the
commit instant as a natural number). -/
structure Entry where
  role : Role
  text : String
  timestamp : Nat
deriving DecidableEq, Repr

/-- One streaming transcription segment as delivered by the transport. -/
structure Segment where
  text : String
  final : Bool
deriving DecidableEq, Repr

/-- A scheduled farewell timeout: the identifier setTimeout returned and
the instant it is due (scheduling time plus the fixed 4000 ms delay). -/
structure Timer where
  id : Nat
  deadline : Nat
deriving DecidableEq, Repr

/-- The voiceState values of the component. -/
inductive VState where
  | idle
  | connecting
  | listening
  | thinking
  | speaking
  | completing
  | error
deriving DecidableEq, Repr

/-- One invocation of the onComplete callback: the voiceAnswers record
(as an ordered key-value list) and the transcript passed along. -/
structure Payload where
  voiceAnswers : List (String × String)
  transcript : List Entry
deriving DecidableEq, Repr

/-- Per-session configuration fixed at mount: the participant display
name (basicsAnswers.name fallback) and the totalQuestions count derived
from the interview plan. -/
structure Config where
  participantName : String
  totalQuestions : Nat
deriving DecidableEq, Repr

/-- The session state: every useState hook and useRef of the component,
plus the set of still-pending farewell timeouts and the log of
onComplete invocations (the observable output). -/
structure SState where
  voiceState : VState
  isConnected : Bool
  agentText : String
  userText : String
  transcript : List Entry
  noteText : String
  interviewEnded : Bool
  completingRef : Bool
  farewellTimerRef : Option Nat
  pendingTimers : List Timer
  nextTimerId : Nat
  answeredCount : Nat
  hasRoom : Bool
  audioElement : Bool
  callbacks : List Payload
deriving DecidableEq, Repr

/-- Initial component state: all hooks at their useState defaults, all
refs null. -/
def initState : SState where
  voiceState := .idle
  isConnected := false
  agentText := ""
  userText := ""
  transcript := []
  noteText := ""
  interviewEnded := false
  completingRef := false
  farewellTimerRef := none
  pendingTimers := []
  nextTimerId := 0
  answeredCount := 0
  hasRoom := false
  audioElement := false
  callbacks := []

/-! ## Handler logic -/

/-- The FAREWELL_PATTERNS constant of the source. -/
def FAREWELL_PATTERNS : List String :=
  [ "interview is complete", "interview complete", "enhanced resume",
    "resume will be ready", "good luck", "goodbye", "that wraps up",
    "best of luck", "hasta luego", "gracias por tu tiempo",
    "thank you for your time", "take care" ]

/-- Farewell detection: lower-case the text and test substring
containment against every pattern (OR semantics). -/
def isFarewellText (text : String) : Bool :=
  FAREWELL_PATTERNS.any (fun p => strIncludes (lowerS text) p)

/-- Role attribution of the TranscriptionReceived handler:
participant.identity.includes(agent marker) (undefined when the identity
is missing) OR NOT participant.identity.startsWith(participantName)
(undefined, hence negated to true, when the identity is missing). -/
def roleOf (identity : Option String) (participantName : String) : Role :=
  let includesAgent :=
    match identity with
    | none => false
    | some id => strIncludes id "agent"
  let startsWithName :=
    match identity with
    | none => false
    | some id => startsWithS id participantName
  if includesAgent || !startsWithName then .agent else .user

/-- The clamp bound of the answeredCount update:
Math.min(prev + 1, totalQuestions || 999). -/
def clampBound (totalQuestions : Nat) : Nat :=
  if totalQuestions = 0 then 999 else totalQuestions

/-- Processing of one transcription segment inside the
TranscriptionReceived handler loop, at instant t. -/
def stepSegment (cfg : Config) (s : SState) (t : Nat) (identity : Option String)
    (seg : Segment) : SState :=
  let role := roleOf identity cfg.participantName
  if role = .agent then
    let s := { s with agentText := seg.text }
    if seg.final = true ∧ trimNonempty seg.text = true then
      let s := { s with transcript := s.transcript ++ [Entry.mk .agent seg.text t] }
      if s.completingRef = false then
        if isFarewellText seg.text = true then
          -- clearTimeout on the previously stored timer handle, then
          -- setTimeout for 4000 ms and store the new handle
          let cleared :=
            match s.farewellTimerRef with
            | none => s.pendingTimers
            | some tid => s.pendingTimers.filter (fun tm => tm.id ≠ tid)
          { s with
              pendingTimers := cleared ++ [Timer.mk s.nextTimerId (t + 4000)],
              farewellTimerRef := some s.nextTimerId,
              nextTimerId := s.nextTimerId + 1 }
        else s
      else s
    else s
  else
    let s := { s with userText := seg.text }
    if seg.final = true ∧ trimNonempty seg.text = true then
      let s := { s with transcript := s.transcript ++ [Entry.mk .user seg.text t] }
      let s :=
        if 3 ≤ wordCount seg.text then
          { s with answeredCount := min (s.answeredCount + 1) (clampBound cfg.totalQuestions) }
        else s
      { s with userText := "" }
    else s

/-- The farewell setTimeout callback: runs only while its handle is
still pending (clearTimeout removes the handle), consumes the handle,
and transitions iff the completion guard is still unset. -/
def stepTimerFire (s : SState) (id : Nat) : SState :=
  if s.pendingTimers.any (fun tm => tm.id = id) = true then
    let s := { s with pendingTimers := s.pendingTimers.filter (fun tm => tm.id ≠ id) }
    if s.completingRef = false then
      { s with completingRef := true, interviewEnded := true, voiceState := .completing }
    else s
  else s

/-- The ParticipantDisconnected handler: identity.includes(agent marker)
and guard unset transition to completing; the pending farewell timeout
is left untouched. -/
def stepParticipantDisconnected (s : SState) (identity : Option String) : SState :=
  let includesAgent :=
    match identity with
    | none => false
    | some id => strIncludes id "agent"
  if includesAgent = true ∧ s.completingRef = false then
    { s with completingRef := true, interviewEnded := true, voiceState := .completing }
  else s

/-- The ConnectionStateChanged handler. -/
def stepConnectionChanged (s : SState) (connected : Bool) : SState :=
  if connected then
    { s with isConnected := true, voiceState := .listening }
  else
    let s := { s with isConnected := false }
    if s.completingRef = false then { s with voiceState := .idle } else s

/-- The TrackSubscribed handler: an audio track renders an audio element
and moves to speaking. -/
def stepTrackSubscribed (s : SState) (isAudio : Bool) : SState :=
  if isAudio then { s with voiceState := .speaking, audioElement := true } else s

/-- The TrackUnsubscribed handler: an audio track removes its rendered
elements and moves back to listening (the ref is not cleared). -/
def stepTrackUnsubscribed (s : SState) (isAudio : Bool) : SState :=
  if isAudio then { s with voiceState := .listening } else s

/-- The DataReceived transcript-fallback branch, already JSON-decoded:
agent + final + non-blank appends an agent entry. -/
def stepDataTranscript (s : SState) (t : Nat) (role : String) (text : String)
    (isFinal : Bool) : SState :=
  if role = "agent" ∧ isFinal = true ∧ trimNonempty text = true then
    { s with agentText := text, transcript := s.transcript ++ [Entry.mk .agent text t] }
  else s

/-- The disconnect operation: room torn down, audio element removed,
connection flag and voiceState reset (the source sets voiceState to
idle unconditionally). -/
def disconnectStep (s : SState) : SState :=
  { s with hasRoom := false, audioElement := false,
           isConnected := false, voiceState := .idle }

/-- The voiceAnswers record and transcript handed to onComplete by
handleComplete. -/
def completePayload (s : SState) : Payload :=
  let userMessages := (s.transcript.filter (fun e => e.role = .user)).map (fun e => e.text)
  let va1 : List (String × String) :=
    if userMessages = [] then []
    else [("interviewTranscript", joinSep "\n\n" userMessages)]
  let va2 : List (String × String) :=
    if trimNonempty s.noteText = true then [("additionalNotes", s.noteText)] else []
  ⟨va1 ++ va2, s.transcript⟩

/-- handleComplete: disconnect, then invoke onComplete with the
assembled answers and the transcript. -/
def handleCompleteStep (s : SState) : SState :=
  let p := completePayload s
  let s1 := disconnectStep s
  { s1 with callbacks := s1.callbacks ++ [p] }

/-- handleAddNote at instant t: non-blank note with an active room is
appended to the transcript as a user entry (trimmed) and the input is
cleared; the data-channel publish has no local state effect. -/
def handleAddNoteStep (s : SState) (t : Nat) : SState :=
  if trimNonempty s.noteText = true ∧ s.hasRoom = true then
    { s with transcript := s.transcript ++ [Entry.mk .user ⟨trimL s.noteText.data⟩ t],
             noteText := "" }
  else s

/-- connectToRoom up to the connect call: a room object exists and the
state shows connecting. -/
def startSessionStep (s : SState) : SState :=
  { s with voiceState := .connecting, hasRoom := true }

/-! ## Event alphabet and the step relation -/

/-- The events the controller reacts to: transport callbacks, timer
callbacks and caller commands. -/
inductive Event where
  | transcription (t : Nat) (identity : Option String) (segments : List Segment)
  | dataTranscript (t : Nat) (role : String) (text : String) (isFinal : Bool)
  | participantDisconnected (identity : Option String)
  | timerFire (id : Nat)
  | trackSubscribed (isAudio : Bool)
  | trackUnsubscribed (isAudio : Bool)
  | connectionChanged (connected : Bool)
  | startSession
  | disconnectCall
  | completeCall
  | setNote (text : String)
  | addNote (t : Nat)
deriving DecidableEq, Repr

/-- One atomic handler execution. -/
def step (cfg : Config) (s : SState) : Event → SState
  | .transcription t identity segs =>
      segs.foldl (fun s seg => stepSegment cfg s t identity seg) s
  | .dataTranscript t role text isFinal => stepDataTranscript s t role text isFinal
  | .participantDisconnected identity => stepParticipantDisconnected s identity
  | .timerFire id => stepTimerFire s id
  | .trackSubscribed isAudio => stepTrackSubscribed s isAudio
  | .trackUnsubscribed isAudio => stepTrackUnsubscribed s isAudio
  | .connectionChanged connected => stepConnectionChanged s connected
  | .startSession => startSessionStep s
  | .disconnectCall => disconnectStep s
  | .completeCall => handleCompleteStep s
  | .setNote text => { s with noteText := text }
  | .addNote t => handleAddNoteStep s t

/-- Serialized execution of an event sequence. -/
def run (cfg : Config) (s : SState) (evs : List Event) : SState :=
  evs.foldl (step cfg) s


/-! ## Basic preservation lemmas -/

theorem stepSegment_voiceState (cfg : Config) (s : SState) (t : Nat)
    (identity : Option String) (seg : Segment) :
    (stepSegment cfg s t identity seg).voiceState = s.voiceState := by
  unfold stepSegment
  dsimp only
  split_ifs <;> rfl

theorem stepSegment_completingRef (cfg : Config) (s : SState) (t : Nat)
    (identity : Option String) (seg : Segment) :
    (stepSegment cfg s t identity seg).completingRef = s.completingRef := by
  unfold stepSegment
  dsimp only
  split_ifs <;> rfl

theorem stepSegment_callbacks (cfg : Config) (s : SState) (t : Nat)
    (identity : Option String) (seg : Segment) :
    (stepSegment cfg s t identity seg).callbacks = s.callbacks := by
  unfold stepSegment
  dsimp only
  split_ifs <;> rfl

theorem foldSegments_voiceState (cfg : Config) (t : Nat) (identity : Option String) :
    ∀ (segs : List Segment) (s : SState),
      (segs.foldl (fun s seg => stepSegment cfg s t identity seg) s).voiceState
        = s.voiceState := by
  intro segs
  induction segs with
  | nil => intro s; rfl
  | cons a l ih => intro s; rw [List.foldl_cons, ih, stepSegment_voiceState]

theorem foldSegments_completingRef (cfg : Config) (t : Nat) (identity : Option String) :
    ∀ (segs : List Segment) (s : SState),
      (segs.foldl (fun s seg => stepSegment cfg s t identity seg) s).completingRef
        = s.completingRef := by
  intro segs
  induction segs with
  | nil => intro s; rfl
  | cons a l ih => intro s; rw [List.foldl_cons, ih, stepSegment_completingRef]

theorem foldSegments_callbacks (cfg : Config) (t : Nat) (identity : Option String) :
    ∀ (segs : List Segment) (s : SState),
      (segs.foldl (fun s seg => stepSegment cfg s t identity seg) s).callbacks
        = s.callbacks := by
  intro segs
  induction segs with
  | nil => intro s; rfl
  | cons a l ih => intro s; rw [List.foldl_cons, ih, stepSegment_callbacks]

/-! ## Completion-guard latch lemmas -/

/-- The guard is a one-way latch: no handler ever resets it. -/
theorem step_guard_mono (cfg : Config) (s : SState) (e : Event)
    (h : s.completingRef = true) : (step cfg s e).completingRef = true := by
  cases e <;>
    simp only [step, stepDataTranscript, stepParticipantDisconnected, stepTimerFire,
      stepTrackSubscribed, stepTrackUnsubscribed, stepConnectionChanged,
      startSessionStep, disconnectStep, handleCompleteStep, handleAddNoteStep,
      foldSegments_completingRef] <;>
    first
      | exact h
      | (split_ifs <;> simp_all)

/-- With the guard already set, no handler moves the machine into the
completing state: a post-state in completing was already completing. -/
theorem step_no_entry_of_guard (cfg : Config) (s : SState) (e : Event)
    (hg : s.completingRef = true)
    (hc : (step cfg s e).voiceState = VState.completing) :
    s.voiceState = VState.completing := by
  cases e <;>
    simp only [step, stepDataTranscript, stepParticipantDisconnected, stepTimerFire,
      stepTrackSubscribed, stepTrackUnsubscribed, stepConnectionChanged,
      startSessionStep, disconnectStep, handleCompleteStep, handleAddNoteStep,
      foldSegments_voiceState] at hc <;>
    first
      | exact hc
      | (split_ifs at hc <;> simp_all)
      | simp at hc

/-- Any step that enters the completing state sets the guard. -/
theorem step_entry_sets_guard (cfg : Config) (s : SState) (e : Event)
    (hc : (step cfg s e).voiceState = VState.completing)
    (hpre : s.voiceState ≠ VState.completing) :
    (step cfg s e).completingRef = true := by
  cases e <;>
    simp only [step, stepDataTranscript, stepParticipantDisconnected, stepTimerFire,
      stepTrackSubscribed, stepTrackUnsubscribed, stepConnectionChanged,
      startSessionStep, disconnectStep, handleCompleteStep, handleAddNoteStep,
      foldSegments_voiceState, foldSegments_completingRef] at hc ⊢ <;>
    first
      | exact absurd hc hpre
      | (split_ifs at hc ⊢ <;> simp_all)
      | simp at hc

/-- Number of steps along an event sequence that transition the machine
into the completing state. -/
def completingEntries (cfg : Config) : SState → List Event → Nat
  | _, [] => 0
  | s, e :: evs =>
      (if s.voiceState ≠ VState.completing ∧ (step cfg s e).voiceState = VState.completing
       then 1 else 0)
        + completingEntries cfg (step cfg s e) evs

theorem completingEntries_zero_of_guard (cfg : Config) :
    ∀ (evs : List Event) (s : SState), s.completingRef = true →
      completingEntries cfg s evs = 0 := by
  intro evs
  induction evs with
  | nil => intro s _; rfl
  | cons e l ih =>
      intro s hg
      have hnext := step_guard_mono cfg s e hg
      unfold completingEntries
      rw [ih (step cfg s e) hnext]
      have hno : ¬ (s.voiceState ≠ VState.completing ∧
          (step cfg s e).voiceState = VState.completing) := by
        rintro ⟨hne, hc⟩
        exact hne (step_no_entry_of_guard cfg s e hg hc)
      rw [if_neg hno]

theorem completingEntries_le_one (cfg : Config) :
    ∀ (evs : List Event) (s : SState), completingEntries cfg s evs ≤ 1 := by
  intro evs
  induction evs with
  | nil => intro s; exact Nat.zero_le 1
  | cons e l ih =>
      intro s
      unfold completingEntries
      by_cases hE : s.voiceState ≠ VState.completing ∧
          (step cfg s e).voiceState = VState.completing
      · rw [if_pos hE]
        have hg := step_entry_sets_guard cfg s e hE.2 hE.1
        rw [completingEntries_zero_of_guard cfg l (step cfg s e) hg]
      · rw [if_neg hE, Nat.zero_add]
        exact ih (step cfg s e)

/-- A sample configuration used by concrete scenarios. -/
def exCfg : Config := ⟨"Alice", 5⟩

end VoiceInterview

namespace VoiceInterview

/-- The C1 scenario: two farewell-matching final agent utterances
followed by a peer departure of the agent identity. -/
def c1Scenario : List Event :=
  [ Event.transcription 0 (some "agent-ai")
      [Segment.mk "Goodbye and thank you for your time." true],
    Event.transcription 1000 (some "agent-ai")
      [Segment.mk "Good luck with everything!" true],
    Event.participantDisconnected (some "agent-ai") ]

/-- C1: across every session state and every event sequence, at most one
step transitions the machine into the Completing state (the first
qualifying trigger latches the completionGuard and all later triggers
observe it set and no-op); in particular two farewell-matching final
agent utterances followed by an agent peer departure yield exactly one
Completing transition. -/
theorem completing_entered_at_most_once :
    (∀ (cfg : Config) (s : SState) (evs : List Event),
        completingEntries cfg s evs ≤ 1)
    ∧ completingEntries exCfg initState c1Scenario = 1 :=
  ⟨fun cfg s evs => completingEntries_le_one cfg evs s, by decide⟩

end VoiceInterview

namespace VoiceInterview

/-! ## C3: transcript aggregation -/

/-- The transcript entries a single segment contributes: exactly one
entry when the segment is final with non-blank text, none otherwise. -/
def entriesOfSeg (pn : String) (t : Nat) (identity : Option String)
    (seg : Segment) : List Entry :=
  if seg.final = true ∧ trimNonempty seg.text = true then
    [Entry.mk (roleOf identity pn) seg.text t]
  else []

/-- A transcription event as delivered to the handler: receipt instant,
speaking participant identity, and the batch of segments. -/
def entriesOfTran (pn : String) (te : Nat × Option String × List Segment) :
    List Entry :=
  (te.2.2.map (entriesOfSeg pn te.1 te.2.1)).join

/-- The event list corresponding to a pure sequence of transcription
deliveries. -/
def tranEvents (tevs : List (Nat × Option String × List Segment)) : List Event :=
  tevs.map (fun te => Event.transcription te.1 te.2.1 te.2.2)

theorem stepSegment_transcript (cfg : Config) (s : SState) (t : Nat)
    (identity : Option String) (seg : Segment) :
    (stepSegment cfg s t identity seg).transcript
      = s.transcript ++ entriesOfSeg cfg.participantName t identity seg := by
  cases hrole : roleOf identity cfg.participantName <;>
    simp only [stepSegment, entriesOfSeg, hrole] <;>
    split_ifs <;> simp_all

theorem foldSegments_transcript (cfg : Config) (t : Nat) (identity : Option String) :
    ∀ (segs : List Segment) (s : SState),
      (segs.foldl (fun s seg => stepSegment cfg s t identity seg) s).transcript
        = s.transcript ++ (segs.map (entriesOfSeg cfg.participantName t identity)).join := by
  intro segs
  induction segs with
  | nil => intro s; simp
  | cons a l ih =>
      intro s
      rw [List.foldl_cons, ih, stepSegment_transcript]
      simp [List.append_assoc]

theorem run_tran_transcript (cfg : Config) :
    ∀ (tevs : List (Nat × Option String × List Segment)) (s : SState),
      (run cfg s (tranEvents tevs)).transcript
        = s.transcript ++ (tevs.map (entriesOfTran cfg.participantName)).join := by
  intro tevs
  induction tevs with
  | nil => intro s; simp [run, tranEvents]
  | cons a l ih =>
      intro s
      show (run cfg (step cfg s (Event.transcription a.1 a.2.1 a.2.2)) (tranEvents l)).transcript = _
      rw [ih, show step cfg s (Event.transcription a.1 a.2.1 a.2.2)
            = a.2.2.foldl (fun s seg => stepSegment cfg s a.1 a.2.1 seg) s from rfl,
          foldSegments_transcript]
      simp [entriesOfTran, List.append_assoc]

theorem entriesOfSeg_length (pn : String) (t : Nat) (identity : Option String)
    (seg : Segment) :
    (entriesOfSeg pn t identity seg).length
      = if seg.final && trimNonempty seg.text then 1 else 0 := by
  unfold entriesOfSeg
  split_ifs <;> simp_all

theorem entriesOfTran_length (pn : String) (te : Nat × Option String × List Segment) :
    (entriesOfTran pn te).length
      = te.2.2.countP (fun seg => seg.final && trimNonempty seg.text) := by
  obtain ⟨t1, id1, segs⟩ := te
  unfold entriesOfTran
  dsimp only
  induction segs with
  | nil => rfl
  | cons a l ih =>
      simp only [List.map_cons, List.join_cons, List.length_append, ih,
        List.countP_cons, entriesOfSeg_length]
      omega

theorem run_append (cfg : Config) (s : SState) (l1 l2 : List Event) :
    run cfg s (l1 ++ l2) = run cfg (run cfg s l1) l2 := by
  simp [run, List.foldl_append]

theorem joined_entries_length (pn : String) :
    ∀ tevs : List (Nat × Option String × List Segment),
      ((tevs.map (entriesOfTran pn)).join).length
        = (tevs.map (fun te =>
            te.2.2.countP (fun seg => seg.final && trimNonempty seg.text))).sum := by
  intro tevs
  induction tevs with
  | nil => rfl
  | cons a l ih =>
      simp only [List.map_cons, List.join_cons, List.length_append, ih,
        List.sum_cons, entriesOfTran_length]

/-- C3: for every sequence of transcription deliveries, the transcript
consists of exactly one entry per final segment with non-blank trimmed
text, in receipt order; its length is the count of such segments, and
processing a prefix of the deliveries yields a prefix of the transcript
(entries are appended once and never mutated afterwards). -/
theorem transcript_mirrors_final_segments
    (cfg : Config) (tevs : List (Nat × Option String × List Segment)) :
    (run cfg initState (tranEvents tevs)).transcript
        = (tevs.map (entriesOfTran cfg.participantName)).join
    ∧ (run cfg initState (tranEvents tevs)).transcript.length
        = (tevs.map (fun te =>
            te.2.2.countP (fun seg => seg.final && trimNonempty seg.text))).sum
    ∧ ∀ n, List.IsPrefix
        (run cfg initState (tranEvents (tevs.take n))).transcript
        (run cfg initState (tranEvents tevs)).transcript := by
  refine ⟨?_, ?_, ?_⟩
  · rw [run_tran_transcript]
    rfl
  · rw [run_tran_transcript]
    show (([] : List Entry) ++ _).length = _
    rw [List.nil_append]
    exact joined_entries_length cfg.participantName tevs
  · intro n
    refine ⟨((tevs.drop n).map (entriesOfTran cfg.participantName)).join, ?_⟩
    have h1 : tranEvents tevs = tranEvents (tevs.take n) ++ tranEvents (tevs.drop n) := by
      unfold tranEvents
      rw [← List.map_append, List.take_append_drop]
    rw [h1, run_append]
    simp [run_tran_transcript, List.append_assoc]

end VoiceInterview

namespace VoiceInterview

/-! ## C7 and C8: the progress counter -/

theorem stepSegment_answeredCount (cfg : Config) (s : SState) (t : Nat)
    (identity : Option String) (seg : Segment) :
    (stepSegment cfg s t identity seg).answeredCount
      = if roleOf identity cfg.participantName = Role.user ∧ seg.final = true ∧
           trimNonempty seg.text = true ∧ 3 ≤ wordCount seg.text
        then min (s.answeredCount + 1) (clampBound cfg.totalQuestions)
        else s.answeredCount := by
  cases hrole : roleOf identity cfg.participantName <;>
    simp only [stepSegment, hrole] <;>
    split_ifs <;> simp_all

theorem stepSegment_count_sandwich (cfg : Config) (s : SState) (t : Nat)
    (identity : Option String) (seg : Segment)
    (h : s.answeredCount ≤ clampBound cfg.totalQuestions) :
    s.answeredCount ≤ (stepSegment cfg s t identity seg).answeredCount
    ∧ (stepSegment cfg s t identity seg).answeredCount ≤ clampBound cfg.totalQuestions := by
  rw [stepSegment_answeredCount]
  split_ifs <;> omega

theorem foldSegments_count_sandwich (cfg : Config) (t : Nat) (identity : Option String) :
    ∀ (segs : List Segment) (s : SState),
      s.answeredCount ≤ clampBound cfg.totalQuestions →
      s.answeredCount
          ≤ (segs.foldl (fun s seg => stepSegment cfg s t identity seg) s).answeredCount
      ∧ (segs.foldl (fun s seg => stepSegment cfg s t identity seg) s).answeredCount
          ≤ clampBound cfg.totalQuestions := by
  intro segs
  induction segs with
  | nil => intro s h; exact ⟨Nat.le_refl _, h⟩
  | cons a l ih =>
      intro s h
      rw [List.foldl_cons]
      have h1 := stepSegment_count_sandwich cfg s t identity a h
      have h2 := ih (stepSegment cfg s t identity a) h1.2
      exact ⟨Nat.le_trans h1.1 h2.1, h2.2⟩

theorem step_count_sandwich (cfg : Config) (s : SState) (e : Event)
    (h : s.answeredCount ≤ clampBound cfg.totalQuestions) :
    s.answeredCount ≤ (step cfg s e).answeredCount
    ∧ (step cfg s e).answeredCount ≤ clampBound cfg.totalQuestions := by
  cases e <;>
    simp only [step, stepDataTranscript, stepParticipantDisconnected, stepTimerFire,
      stepTrackSubscribed, stepTrackUnsubscribed, stepConnectionChanged,
      startSessionStep, disconnectStep, handleCompleteStep, handleAddNoteStep] <;>
    first
      | exact foldSegments_count_sandwich cfg _ _ _ s h
      | exact ⟨Nat.le_refl _, h⟩
      | (split_ifs <;> exact ⟨Nat.le_refl _, h⟩)

theorem run_count_sandwich (cfg : Config) :
    ∀ (evs : List Event) (s : SState),
      s.answeredCount ≤ clampBound cfg.totalQuestions →
      s.answeredCount ≤ (run cfg s evs).answeredCount
      ∧ (run cfg s evs).answeredCount ≤ clampBound cfg.totalQuestions := by
  intro evs
  induction evs with
  | nil => intro s h; exact ⟨Nat.le_refl _, h⟩
  | cons e l ih =>
      intro s h
      have h1 := step_count_sandwich cfg s e h
      have h2 := ih (step cfg s e) h1.2
      exact ⟨Nat.le_trans h1.1 h2.1, h2.2⟩

/-- C7: answeredCount is monotonically non-decreasing along every event
sequence, never exceeds totalQuestions when totalQuestions is positive,
and over a single user segment it is bumped (clamped) exactly when the
segment is final with non-blank text of at least three
whitespace-delimited words, and left unchanged when the word count is
below three. -/
theorem answeredCount_monotone_bounded (cfg : Config) (evs ext : List Event) :
    (run cfg initState evs).answeredCount
        ≤ (run cfg initState (evs ++ ext)).answeredCount
    ∧ (0 < cfg.totalQuestions →
        (run cfg initState evs).answeredCount ≤ cfg.totalQuestions)
    ∧ ∀ (t : Nat) (identity : Option String) (seg : Segment),
        roleOf identity cfg.participantName = Role.user → seg.final = true →
        trimNonempty seg.text = true →
        ((3 ≤ wordCount seg.text →
            (stepSegment cfg (run cfg initState evs) t identity seg).answeredCount
              = min ((run cfg initState evs).answeredCount + 1)
                  (clampBound cfg.totalQuestions))
         ∧ (wordCount seg.text < 3 →
            (stepSegment cfg (run cfg initState evs) t identity seg).answeredCount
              = (run cfg initState evs).answeredCount)) := by
  have h0 : initState.answeredCount ≤ clampBound cfg.totalQuestions := Nat.zero_le _
  have hrun := run_count_sandwich cfg evs initState h0
  refine ⟨?_, ?_, ?_⟩
  · rw [run_append]
    exact (run_count_sandwich cfg ext (run cfg initState evs) hrun.2).1
  · intro ht
    have hB : clampBound cfg.totalQuestions = cfg.totalQuestions := by
      unfold clampBound
      rw [if_neg (Nat.pos_iff_ne_zero.mp ht)]
    exact hB ▸ hrun.2
  · intro t identity seg hrole hfin htrim
    constructor
    · intro hwc
      rw [stepSegment_answeredCount, if_pos ⟨hrole, hfin, htrim, hwc⟩]
    · intro hwc
      rw [stepSegment_answeredCount, if_neg]
      rintro ⟨-, -, -, h3⟩
      omega

/-- Witness for C7 at concrete inputs: a seven-word final user utterance
from the fresh session increments the counter to one, and a final user
utterance of a single word leaves it at zero. -/
theorem answeredCount_monotone_bounded_witness :
    (stepSegment exCfg (run exCfg initState []) 0 (some "Alice-7af3")
        (Segment.mk "I led a team of five engineers" true)).answeredCount = 1
    ∧ (stepSegment exCfg (run exCfg initState []) 0 (some "Alice-7af3")
        (Segment.mk "Yes" true)).answeredCount = 0 := by
  have h := answeredCount_monotone_bounded exCfg [] []
  constructor
  · exact ((h.2.2 0 (some "Alice-7af3") (Segment.mk "I led a team of five engineers" true)
      (by decide) (by decide) (by decide)).1 (by decide)).trans (by decide)
  · exact ((h.2.2 0 (some "Alice-7af3") (Segment.mk "Yes" true)
      (by decide) (by decide) (by decide)).2 (by decide)).trans (by decide)

end VoiceInterview

namespace VoiceInterview

/-- A session configuration whose interview plan yields no questions
(totalQuestions = 0). -/
def cfg0 : Config := ⟨"Alice", 0⟩

/-- A qualifying delivery: a final user segment of seven words. -/
def qEvent : Event :=
  Event.transcription 0 (some "Alice-7af3")
    [Segment.mk "I led a team of five engineers" true]

theorem step_qEvent_answeredCount (s : SState) :
    (step cfg0 s qEvent).answeredCount = min (s.answeredCount + 1) 999 := by
  show (stepSegment cfg0 s 0 (some "Alice-7af3")
      (Segment.mk "I led a team of five engineers" true)).answeredCount = _
  rw [stepSegment_answeredCount, if_pos ⟨by decide, rfl, by decide, by decide⟩]
  rfl

theorem answeredCount_sentinel (n : Nat) :
    (run cfg0 initState (List.replicate n qEvent)).answeredCount = min n 999 := by
  induction n with
  | zero => rfl
  | succ n ih =>
      rw [List.replicate_succ', run_append]
      show (step cfg0 (run cfg0 initState (List.replicate n qEvent)) qEvent).answeredCount = _
      rw [step_qEvent_answeredCount, ih]
      omega

/-- C8 counterexample: with totalExpected = 0, one thousand qualifying
final user utterances leave answeredCount at 999, not 1000 — the
counter is clamped by the 999 sentinel, not left unbounded. -/
theorem answeredCount_unbounded_refuted :
    (run cfg0 initState (List.replicate 1000 qEvent)).answeredCount = 999
    ∧ (run cfg0 initState (List.replicate 1000 qEvent)).answeredCount ≠ 1000 := by
  have h := answeredCount_sentinel 1000
  exact ⟨h.trans (by decide), by rw [h]; decide⟩

/-- C8 amended: when totalExpected is 0/unknown the fallback clamp is
the sentinel 999: every final user segment of at least three words
moves the counter to min (count + 1) 999, so n qualifying utterances
from a fresh session leave it at min n 999 (it stops growing at 999). -/
theorem answeredCount_sentinel_clamp :
    (∀ (pn : String) (s : SState) (t : Nat) (identity : Option String) (seg : Segment),
       roleOf identity pn = Role.user → seg.final = true →
       trimNonempty seg.text = true → 3 ≤ wordCount seg.text →
       (stepSegment ⟨pn, 0⟩ s t identity seg).answeredCount
         = min (s.answeredCount + 1) 999)
    ∧ ∀ n, (run cfg0 initState (List.replicate n qEvent)).answeredCount = min n 999 := by
  constructor
  · intro pn s t identity seg hrole hfin htrim hwc
    rw [stepSegment_answeredCount, if_pos ⟨hrole, hfin, htrim, hwc⟩]
    rfl
  · exact answeredCount_sentinel

/-- Witness for the amended C8 at a concrete input: the seven-word final
user utterance from the fresh zero-question session moves the counter
to one. -/
theorem answeredCount_sentinel_clamp_witness :
    (stepSegment ⟨"Alice", 0⟩ initState 0 (some "Alice-7af3")
        (Segment.mk "I led a team of five engineers" true)).answeredCount = 1 := by
  have h := answeredCount_sentinel_clamp.1 "Alice" initState 0 (some "Alice-7af3")
    (Segment.mk "I led a team of five engineers" true)
    (by decide) (by decide) (by decide) (by decide)
  exact h.trans (by decide)

end VoiceInterview

namespace VoiceInterview

/-! ## C4 and C2: the complete() operation and its callback -/

/-- C4 counterexample: from the fresh session with the guard unset, a
complete() invocation leaves the guard unset and the state Idle rather
than Completing, and a second invocation emits a second callback — the
operation neither latches the guard nor is idempotent. -/
theorem complete_idempotent_refuted :
    initState.completingRef = false
    ∧ (handleCompleteStep initState).completingRef = false
    ∧ (handleCompleteStep initState).voiceState ≠ VState.completing
    ∧ (handleCompleteStep (handleCompleteStep initState)).callbacks.length = 2 := by
  decide

/-- C4 amended: complete() never consults or mutates the
completionGuard and does not transition to Completing: it
unconditionally tears the session down to Idle and appends exactly one
completion callback per invocation, so repeated calls append repeated
callbacks. -/
theorem complete_unguarded_teardown (s : SState) :
    (handleCompleteStep s).completingRef = s.completingRef
    ∧ (handleCompleteStep s).voiceState = VState.idle
    ∧ (handleCompleteStep s).hasRoom = false
    ∧ (handleCompleteStep s).audioElement = false
    ∧ (handleCompleteStep s).callbacks = s.callbacks ++ [completePayload s]
    ∧ (handleCompleteStep (handleCompleteStep s)).callbacks.length
        = s.callbacks.length + 2 := by
  refine ⟨rfl, rfl, rfl, rfl, rfl, ?_⟩
  show ((s.callbacks ++ [completePayload s])
      ++ [completePayload (handleCompleteStep s)]).length = s.callbacks.length + 2
  simp

/-- The answer summary the specification describes: the user-role
transcript utterances concatenated under the single field
interviewTranscript (present when at least one exists), plus the
session-local notes under additionalNotes when non-blank. -/
def specAnswerSummary (s : SState) : List (String × String) :=
  (if (s.transcript.filter (fun e => e.role = Role.user)).map (fun e => e.text) = []
   then []
   else [("interviewTranscript",
          joinSep "\n\n"
            ((s.transcript.filter (fun e => e.role = Role.user)).map (fun e => e.text)))])
  ++ (if trimNonempty s.noteText = true
      then [("additionalNotes", s.noteText)] else [])

/-- The C2 scenario: one final user utterance, then two complete()
invocations. -/
def c2Scenario : List Event :=
  [ Event.transcription 5 (some "Alice-7af3")
      [Segment.mk "I enjoy building compilers" true],
    Event.completeCall, Event.completeCall ]

/-- C2 counterexample: the callback is not emitted exactly once per
session — two complete() invocations in one session emit two callbacks. -/
theorem completion_callback_once_refuted :
    (run exCfg initState c2Scenario).callbacks.length = 2 := by
  decide

/-- C2 amended: each complete() invocation emits exactly one callback,
carrying the specified answer summary (concatenated user utterances
under one field, plus the non-blank session notes) together with the
full ordered transcript; but nothing limits emission to once per
session — a second invocation emits a second callback. -/
theorem completion_callback_payload (cfg : Config) (evs : List Event) :
    (run cfg initState (evs ++ [Event.completeCall])).callbacks
        = (run cfg initState evs).callbacks
          ++ [Payload.mk (specAnswerSummary (run cfg initState evs))
                (run cfg initState evs).transcript]
    ∧ (run cfg initState (evs ++ [Event.completeCall])).callbacks.length
        = (run cfg initState evs).callbacks.length + 1
    ∧ (run cfg initState
          (evs ++ [Event.completeCall, Event.completeCall])).callbacks.length
        = (run cfg initState evs).callbacks.length + 2 := by
  have h1 : ∀ s : SState, (handleCompleteStep s).callbacks
      = s.callbacks ++ [Payload.mk (specAnswerSummary s) s.transcript] := by
    intro s; rfl
  refine ⟨?_, ?_, ?_⟩
  · rw [run_append]
    exact h1 (run cfg initState evs)
  · rw [run_append]
    show (handleCompleteStep (run cfg initState evs)).callbacks.length = _
    rw [h1]
    simp
  · rw [run_append]
    show (handleCompleteStep (handleCompleteStep (run cfg initState evs))).callbacks.length = _
    rw [h1, h1]
    simp

/-! ## C9: disconnect -/

/-- The C9 scenario: a farewell utterance whose timer then fires,
leaving the session in Completing. -/
def c9Scenario : List Event :=
  [ Event.transcription 0 (some "agent-ai") [Segment.mk "Goodbye!" true],
    Event.timerFire 0 ]

/-- C9 counterexample: disconnect() does not leave a completing session
in Completing — from the Completing state it unconditionally resets the
state to Idle. -/
theorem disconnect_spares_completing_refuted :
    (run exCfg initState c9Scenario).voiceState = VState.completing
    ∧ (step exCfg (run exCfg initState c9Scenario) Event.disconnectCall).voiceState
        = VState.idle := by
  decide

/-- C9 amended: disconnect() tears down the room, removes the rendered
audio element, resets the connection flag and returns the session to
Idle unconditionally — even from Completing; it is idempotent (a second
consecutive call changes nothing) and leaves the transcript intact. -/
theorem disconnect_idempotent_teardown (cfg : Config) (s : SState) :
    (step cfg s Event.disconnectCall).hasRoom = false
    ∧ (step cfg s Event.disconnectCall).audioElement = false
    ∧ (step cfg s Event.disconnectCall).isConnected = false
    ∧ (step cfg s Event.disconnectCall).voiceState = VState.idle
    ∧ step cfg (step cfg s Event.disconnectCall) Event.disconnectCall
        = step cfg s Event.disconnectCall
    ∧ (step cfg s Event.disconnectCall).transcript = s.transcript :=
  ⟨rfl, rfl, rfl, rfl, rfl, rfl⟩

end VoiceInterview

namespace VoiceInterview

/-! ## C5: peer departure -/

/-- A session that has scheduled one farewell timer and nothing else. -/
def c5PreState : SState :=
  run exCfg initState
    [Event.transcription 10 (some "agent-ai") [Segment.mk "Goodbye!" true]]

/-- C5 counterexample: an agent peer departure with the guard unset does
transition to Completing immediately, but it does not cancel the pending
farewell timer — the timer scheduled at instant 10 is still pending
afterwards. -/
theorem peer_departure_cancels_timer_refuted :
    c5PreState.pendingTimers = [Timer.mk 0 4010]
    ∧ (stepParticipantDisconnected c5PreState (some "agent-ai")).voiceState
        = VState.completing
    ∧ (stepParticipantDisconnected c5PreState (some "agent-ai")).pendingTimers
        = [Timer.mk 0 4010] := by
  decide

/-- C5 amended: on a peer departure whose identity contains the agent
marker, with the guard unset, the controller immediately (no delay) sets
the guard and transitions to Completing; the pending farewell timer is
not cancelled, but when it later fires it observes the guard and has no
effect beyond consuming its handle. -/
theorem peer_departure_immediate_completion (s : SState) (identity : String)
    (hag : strIncludes identity "agent" = true)
    (hg : s.completingRef = false) :
    stepParticipantDisconnected s (some identity)
        = { s with completingRef := true, interviewEnded := true,
                   voiceState := VState.completing }
    ∧ (stepParticipantDisconnected s (some identity)).pendingTimers = s.pendingTimers
    ∧ ∀ id,
        (stepTimerFire (stepParticipantDisconnected s (some identity)) id).voiceState
            = VState.completing
        ∧ (stepTimerFire (stepParticipantDisconnected s (some identity)) id).callbacks
            = s.callbacks
        ∧ (stepTimerFire (stepParticipantDisconnected s (some identity)) id).completingRef
            = true := by
  have h1 : stepParticipantDisconnected s (some identity)
      = { s with completingRef := true, interviewEnded := true,
                 voiceState := VState.completing } := by
    unfold stepParticipantDisconnected
    dsimp only
    rw [if_pos ⟨hag, hg⟩]
  refine ⟨h1, by rw [h1], ?_⟩
  intro id
  rw [h1]
  unfold stepTimerFire
  dsimp only
  split_ifs <;> simp_all

/-- Witness for the amended C5 at a concrete input: departure of
identity agent-ai from the session that scheduled a farewell timer
leaves that timer pending while completing immediately. -/
theorem peer_departure_immediate_completion_witness :
    (stepParticipantDisconnected c5PreState (some "agent-ai")).pendingTimers
        = c5PreState.pendingTimers
    ∧ (stepTimerFire (stepParticipantDisconnected c5PreState (some "agent-ai")) 0).voiceState
        = VState.completing := by
  have h := peer_departure_immediate_completion c5PreState "agent-ai"
    (by decide) (by decide)
  exact ⟨h.2.1, (h.2.2 0).1⟩

end VoiceInterview

namespace VoiceInterview

/-! ## C6: the farewell debounce -/

/-- Invariant tying the stored timer handle to the pending timeouts:
every pending farewell timeout is the one whose handle the ref stores,
and at most one timeout is pending. -/
def TimerInv (s : SState) : Prop :=
  (∀ tm ∈ s.pendingTimers, s.farewellTimerRef = some tm.id)
  ∧ s.pendingTimers.length ≤ 1

theorem cleared_eq_nil (s : SState)
    (h : ∀ tm ∈ s.pendingTimers, s.farewellTimerRef = some tm.id) :
    (match s.farewellTimerRef with
     | none => s.pendingTimers
     | some tid => s.pendingTimers.filter (fun tm => tm.id ≠ tid)) = [] := by
  cases href : s.farewellTimerRef with
  | none =>
      cases hp : s.pendingTimers with
      | nil => rfl
      | cons a l =>
          have := h a (by rw [hp]; exact List.mem_cons_self a l)
          rw [href] at this
          exact absurd this (by simp)
  | some tid =>
      dsimp only
      rw [List.filter_eq_nil]
      intro a ha
      have := h a ha
      rw [href] at this
      simp_all
  
theorem stepSegment_TimerInv (cfg : Config) (s : SState) (t : Nat)
    (identity : Option String) (seg : Segment) (h : TimerInv s) :
    TimerInv (stepSegment cfg s t identity seg) := by
  obtain ⟨h1, h2⟩ := h
  unfold stepSegment
  dsimp only
  split_ifs <;> try exact ⟨h1, h2⟩
  rw [cleared_eq_nil s h1]
  constructor
  · intro tm hm
    simp only [List.nil_append, List.mem_singleton] at hm
    rw [hm]
  · simp

theorem foldSegments_TimerInv (cfg : Config) (t : Nat) (identity : Option String) :
    ∀ (segs : List Segment) (s : SState), TimerInv s →
      TimerInv (segs.foldl (fun s seg => stepSegment cfg s t identity seg) s) := by
  intro segs
  induction segs with
  | nil => intro s h; exact h
  | cons a l ih =>
      intro s h
      rw [List.foldl_cons]
      exact ih _ (stepSegment_TimerInv cfg s t identity a h)

theorem step_TimerInv (cfg : Config) (s : SState) (e : Event) (h : TimerInv s) :
    TimerInv (step cfg s e) := by
  obtain ⟨h1, h2⟩ := h
  cases e <;>
    simp only [step, stepDataTranscript, stepParticipantDisconnected, stepTimerFire,
      stepTrackSubscribed, stepTrackUnsubscribed, stepConnectionChanged,
      startSessionStep, disconnectStep, handleCompleteStep, handleAddNoteStep] <;>
    first
      | exact foldSegments_TimerInv cfg _ _ _ s ⟨h1, h2⟩
      | exact ⟨h1, h2⟩
      | (split_ifs <;>
          first
            | exact ⟨h1, h2⟩
            | exact ⟨fun tm hm => h1 tm (List.mem_of_mem_filter hm),
                Nat.le_trans (List.length_filter_le _ _) h2⟩)

theorem run_TimerInv (cfg : Config) :
    ∀ (evs : List Event) (s : SState), TimerInv s → TimerInv (run cfg s evs) := by
  intro evs
  induction evs with
  | nil => intro s h; exact h
  | cons e l ih => intro s h; exact ih (step cfg s e) (step_TimerInv cfg s e h)

/-- The C6 scenario: two distinct farewell-matching final agent
utterances, the first at instant t1, the second at instant t2 (before
the first delay has fired). -/
def c6Scenario (t1 t2 : Nat) : List Event :=
  [ Event.transcription t1 (some "agent-ai") [Segment.mk "Goodbye!" true],
    Event.transcription t2 (some "agent-ai") [Segment.mk "Good luck!" true] ]

/-- C6: at most one farewell timer is pending in any reachable state,
and a second farewell match cancels the first timer and schedules a
single replacement due 4000 ms after the second match: the cancelled
handle fires as a no-op, and only the replacement handle fires the
single Completing transition. -/
theorem farewell_debounce_last_match_wins :
    (∀ (cfg : Config) (evs : List Event),
        (run cfg initState evs).pendingTimers.length ≤ 1)
    ∧ ∀ (t1 t2 : Nat),
        (run exCfg initState (c6Scenario t1 t2)).pendingTimers
            = [Timer.mk 1 (t2 + 4000)]
        ∧ stepTimerFire (run exCfg initState (c6Scenario t1 t2)) 0
            = run exCfg initState (c6Scenario t1 t2)
        ∧ (stepTimerFire (run exCfg initState (c6Scenario t1 t2)) 1).voiceState
            = VState.completing
        ∧ (stepTimerFire (run exCfg initState (c6Scenario t1 t2)) 1).completingRef
            = true := by
  constructor
  · intro cfg evs
    exact (run_TimerInv cfg evs initState ⟨fun tm hm => absurd hm (List.not_mem_nil tm), by decide⟩).2
  · intro t1 t2
    have hrun : run exCfg initState (c6Scenario t1 t2)
        = { voiceState := VState.idle, isConnected := false,
            agentText := "Good luck!", userText := "",
            transcript := [Entry.mk .agent "Goodbye!" t1, Entry.mk .agent "Good luck!" t2],
            noteText := "", interviewEnded := false, completingRef := false,
            farewellTimerRef := some 1,
            pendingTimers := [Timer.mk 1 (t2 + 4000)], nextTimerId := 2,
            answeredCount := 0, hasRoom := false, audioElement := false,
            callbacks := [] } := rfl
    rw [hrun]
    exact ⟨rfl, rfl, rfl, rfl⟩

end VoiceInterview

namespace VoiceInterview

/-! ## C10: role attribution -/

theorem roleOf_none (pn : String) : roleOf none pn = Role.agent := rfl

theorem roleOf_not_startsWith (pn id : String) (h : startsWithS id pn = false) :
    roleOf (some id) pn = Role.agent := by
  unfold roleOf
  dsimp only
  rw [h]
  simp

theorem roleOf_agent_marker (pn id : String) (h : strIncludes id "agent" = true) :
    roleOf (some id) pn = Role.agent := by
  unfold roleOf
  dsimp only
  rw [h]
  simp

/-- C10: role attribution is total and defaults to agent: a missing
identity is attributed agent, an identity not starting with the
participant name is attributed agent, an identity containing the agent
marker is attributed agent, and only identities starting with the
participant name can be attributed user; consequently a final non-blank
segment with a missing identity is appended as an agent utterance,
never contributes to answeredCount, and (guard unset, no stored handle)
is tested against the farewell patterns, scheduling the 4000 ms timer
on a match. -/
theorem role_attribution_defaults_agent :
    (∀ pn, roleOf none pn = Role.agent)
    ∧ (∀ pn id, startsWithS id pn = false → roleOf (some id) pn = Role.agent)
    ∧ (∀ pn id, strIncludes id "agent" = true → roleOf (some id) pn = Role.agent)
    ∧ (∀ pn id, roleOf (some id) pn = Role.user → startsWithS id pn = true)
    ∧ (∀ (cfg : Config) (s : SState) (t : Nat) (seg : Segment),
        seg.final = true → trimNonempty seg.text = true →
        (stepSegment cfg s t none seg).transcript
            = s.transcript ++ [Entry.mk Role.agent seg.text t]
        ∧ (stepSegment cfg s t none seg).answeredCount = s.answeredCount
        ∧ (s.completingRef = false → isFarewellText seg.text = true →
            s.farewellTimerRef = none →
            (stepSegment cfg s t none seg).pendingTimers
              = s.pendingTimers ++ [Timer.mk s.nextTimerId (t + 4000)])) := by
  refine ⟨fun pn => roleOf_none pn, roleOf_not_startsWith, roleOf_agent_marker, ?_, ?_⟩
  · intro pn id h
    cases hs : startsWithS id pn with
    | true => rfl
    | false => rw [roleOf_not_startsWith pn id hs] at h; exact absurd h (by simp)
  · intro cfg s t seg hfin htrim
    refine ⟨?_, ?_, ?_⟩
    · rw [stepSegment_transcript]
      unfold entriesOfSeg
      rw [if_pos ⟨hfin, htrim⟩, roleOf_none]
    · rw [stepSegment_answeredCount]
      rw [if_neg]
      rintro ⟨hrole, -⟩
      rw [roleOf_none] at hrole
      exact absurd hrole (by simp)
    · intro hguard hfw href
      unfold stepSegment
      dsimp only
      rw [roleOf_none]
      rw [if_pos rfl, if_pos ⟨hfin, htrim⟩]
      rw [if_pos hguard, if_pos hfw, href]

/-- Witness for C10 at a concrete input: a final farewell segment with a
missing identity, delivered to the fresh session, is appended as an
agent entry, leaves the counter at zero, and schedules the farewell
timer. -/
theorem role_attribution_defaults_agent_witness :
    (stepSegment exCfg initState 7 none (Segment.mk "Goodbye, take care!" true)).transcript
        = [Entry.mk Role.agent "Goodbye, take care!" 7]
    ∧ (stepSegment exCfg initState 7 none (Segment.mk "Goodbye, take care!" true)).answeredCount
        = 0
    ∧ (stepSegment exCfg initState 7 none (Segment.mk "Goodbye, take care!" true)).pendingTimers
        = [Timer.mk 0 4007] := by
  have h := role_attribution_defaults_agent.2.2.2.2 exCfg initState 7
    (Segment.mk "Goodbye, take care!" true) (by decide) (by decide)
  exact ⟨h.1, h.2.1, (h.2.2 (by decide) (by decide) (by decide)).trans (by decide)⟩

end VoiceInterview
